import Mathlib

/-!
# Verification of the sql-refactor data-access layer

Shallow embedding, in Lean 4, of the parts of the repository that the
frozen claims C1-C10 talk about:

* team-name normalization (`src/services/team_service.py`,
  `src/models/team.py`),
* the generic repository engine (`src/services/base_service.py`),
* the content cache (`src/services/gpt_cache_service.py`),
* cascading delete and transactions (`src/services/recruit_service.py`,
  `src/db/db_utils.py`),
* user + settings creation (`src/services/user_service.py`),
* alias management (`src/services/team_service.py`),
* email-queue status updates (`src/services/email_service.py`),
* JSON-field validation (`src/models/gpt_cache.py`, `src/models/schedule.py`).

Python strings are modelled as Lean `String`s; `str.lower()` is modelled on
the ASCII letters (the only characters the team-normalization claims
exercise).  Database tables are modelled as lists of typed rows; a
parameterized SQL statement is a function from the database state to
`Except DbErr` of a new state, so that storage failures ("forced to fail"
in the spec) can be injected explicitly.  Timestamps (`datetime.utcnow()`)
are threaded as explicit `Nat` parameters.
-/

/-! ## Python string primitives -/

/-- The ASCII uppercase letters. -/
def uppercaseAscii : List Char :=
  ['A', 'B', 'C', 'D', 'E', 'F', 'G', 'H', 'I', 'J', 'K', 'L', 'M',
   'N', 'O', 'P', 'Q', 'R', 'S', 'T', 'U', 'V', 'W', 'X', 'Y', 'Z']

/-- The ASCII lowercase letters. -/
def lowercaseAscii : List Char :=
  ['a', 'b', 'c', 'd', 'e', 'f', 'g', 'h', 'i', 'j', 'k', 'l', 'm',
   'n', 'o', 'p', 'q', 'r', 's', 't', 'u', 'v', 'w', 'x', 'y', 'z']

/-- Lowercasing of one character, as Python `str.lower()` acts on the
ASCII range: each uppercase letter maps to its lowercase counterpart and
every other character is left unchanged. -/
def lowerChar (c : Char) : Char :=
  if c = 'A' then 'a' else if c = 'B' then 'b' else if c = 'C' then 'c'
  else if c = 'D' then 'd' else if c = 'E' then 'e' else if c = 'F' then 'f'
  else if c = 'G' then 'g' else if c = 'H' then 'h' else if c = 'I' then 'i'
  else if c = 'J' then 'j' else if c = 'K' then 'k' else if c = 'L' then 'l'
  else if c = 'M' then 'm' else if c = 'N' then 'n' else if c = 'O' then 'o'
  else if c = 'P' then 'p' else if c = 'Q' then 'q' else if c = 'R' then 'r'
  else if c = 'S' then 's' else if c = 'T' then 't' else if c = 'U' then 'u'
  else if c = 'V' then 'v' else if c = 'W' then 'w' else if c = 'X' then 'x'
  else if c = 'Y' then 'y' else if c = 'Z' then 'z' else c

/-- One step of Python `str.replace(a, b)` for single characters. -/
def replC (a b c : Char) : Char := if c = a then b else c

/-- Python `s.lower()` (ASCII model). -/
def pyLower (s : String) : String := String.mk (s.data.map lowerChar)

/-- Python `s.replace(a, b)` for a single-character pattern `a` and
single-character replacement `b`. -/
def pyReplaceChar (s : String) (a b : Char) : String :=
  String.mk (s.data.map (replC a b))

/-- Python `s.replace(a, "")` for a single-character pattern `a`:
every occurrence of `a` is removed. -/
def pyRemoveChar (s : String) (a : Char) : String :=
  String.mk (s.data.filter (fun c => c != a))

theorem lowerChar_eq_self (c : Char) (h : c ∉ uppercaseAscii) : lowerChar c = c := by
  simp only [uppercaseAscii, List.mem_cons, List.not_mem_nil, or_false, not_or] at h
  obtain ⟨h1, h2, h3, h4, h5, h6, h7, h8, h9, h10, h11, h12, h13, h14, h15,
    h16, h17, h18, h19, h20, h21, h22, h23, h24, h25, h26⟩ := h
  simp only [lowerChar, if_neg h1, if_neg h2, if_neg h3, if_neg h4, if_neg h5,
    if_neg h6, if_neg h7, if_neg h8, if_neg h9, if_neg h10, if_neg h11,
    if_neg h12, if_neg h13, if_neg h14, if_neg h15, if_neg h16, if_neg h17,
    if_neg h18, if_neg h19, if_neg h20, if_neg h21, if_neg h22, if_neg h23,
    if_neg h24, if_neg h25, if_neg h26]

theorem lowerChar_mem_or (c : Char) :
    lowerChar c ∈ lowercaseAscii ∨ lowerChar c = c := by
  by_cases h : c ∈ uppercaseAscii
  · fin_cases h <;> decide
  · exact Or.inr (lowerChar_eq_self c h)

theorem lowerChar_idem (c : Char) : lowerChar (lowerChar c) = lowerChar c := by
  rcases lowerChar_mem_or c with h | h
  · refine lowerChar_eq_self _ fun hc => ?_
    exact absurd hc ((by decide : ∀ d ∈ lowercaseAscii, d ∉ uppercaseAscii) _ h)
  · rw [h]; exact h

/-- If `lowerChar` produces a character that is not a lowercase letter,
that character was already the input. -/
theorem lowerChar_eq_of_not_lower (c d : Char) (hd : d ∉ lowercaseAscii)
    (h : lowerChar c = d) : c = d := by
  rcases lowerChar_mem_or c with hm | hm
  · exact absurd (h ▸ hm) hd
  · rw [← hm, h]

/-! ## Team-name normalization

`TeamService._normalize_name` (src/services/team_service.py, lines 242-255):
`name.lower().replace(' ', '_').replace('-', '_').replace('.', '')`, with an
early `""` return for a falsy (empty) name.

`Team.set_normalized_name` (src/models/team.py, lines 19-25): a pydantic
validator that, when the supplied `normalized_name` is falsy and the `name`
value is present and truthy, returns `values['name'].lower().replace(' ', '_')`
and otherwise returns the supplied value unchanged.
-/

/-- Python truthiness of an optional string: `None` and `""` are falsy. -/
def pyStrIsFalsy : Option String → Bool
  | none => true
  | some s => s == ""

/-- Embedding of `TeamService._normalize_name` from src/services/team_service.py. -/
def TeamService._normalize_name (name : String) : String :=
  if name = "" then ""
  else pyRemoveChar (pyReplaceChar (pyReplaceChar (pyLower name) ' ' '_') '-' '_') '.'

/-- The `set_normalized_name` validator on the `Team` model
(src/models/team.py): `v` is the supplied `normalized_name` (absent or a
string), `name` the `name` entry of `values`. -/
def Team.set_normalized_name (v : Option String) (name : Option String) : Option String :=
  if pyStrIsFalsy v && !(pyStrIsFalsy name) then
    some (pyReplaceChar (pyLower (name.getD "")) ' ' '_')
  else v

/-- The per-character action of the three name-rewriting steps of
`_normalize_name` (lowercase, space to underscore, hyphen to underscore). -/
def normCharFull (c : Char) : Char := replC '-' '_' (replC ' ' '_' (lowerChar c))

theorem normCharFull_idem (c : Char) : normCharFull (normCharFull c) = normCharFull c := by
  by_cases h1 : lowerChar c = ' '
  · have hc : normCharFull c = '_' := by simp [normCharFull, replC, h1]
    rw [hc]; decide
  · by_cases h2 : lowerChar c = '-'
    · have hc : normCharFull c = '_' := by
        simp [normCharFull, replC, h2]
      rw [hc]; decide
    · have hc : normCharFull c = lowerChar c := by simp [normCharFull, replC, h1, h2]
      rw [hc]
      simp [normCharFull, replC, lowerChar_idem c, h1, h2]

theorem normPipe_idem (l : List Char) :
    (((l.map normCharFull).filter (fun c => c != '.')).map normCharFull).filter
        (fun c => c != '.')
      = (l.map normCharFull).filter (fun c => c != '.') := by
  induction l with
  | nil => rfl
  | cons c t ih =>
    simp only [List.map_cons, List.filter_cons]
    by_cases h : (normCharFull c != '.') = true
    · rw [if_pos h]
      simp only [List.map_cons, List.filter_cons, normCharFull_idem c, if_pos h, ih]
    · rw [if_neg h]
      exact ih

theorem _normalize_name_eq_pipe (s : String) :
    TeamService._normalize_name s
      = String.mk ((s.data.map normCharFull).filter (fun c => c != '.')) := by
  by_cases h : s = ""
  · subst h; decide
  · simp only [TeamService._normalize_name, if_neg h, pyRemoveChar, pyReplaceChar, pyLower]
    rw [List.map_map, List.map_map]
    rfl

/-- C5: `TeamService._normalize_name` is a pure function of its input with
`_normalize_name "FC United-Youth." = "fc_united_youth"`, and it is
idempotent: applying it twice gives the same result as applying it once
(underscores and lowercased output are fixed points of the transform set). -/
theorem c5_normalize_name_value_and_idem :
    TeamService._normalize_name "FC United-Youth." = "fc_united_youth" ∧
    ∀ s : String,
      TeamService._normalize_name (TeamService._normalize_name s)
        = TeamService._normalize_name s := by
  refine ⟨by decide, fun s => ?_⟩
  rw [_normalize_name_eq_pipe s, _normalize_name_eq_pipe]
  show String.mk ((((s.data.map normCharFull).filter _).map normCharFull).filter _) = _
  rw [normPipe_idem]

/-- C6 counterexample: on the name "FC United-Youth." the model validator
derives "fc_united-youth." while the service normalization yields
"fc_united_youth" (the validator neither maps hyphens to underscores nor
removes periods), so the two functions do not agree on every input. -/
theorem c6_counterexample :
    Team.set_normalized_name none (some "FC United-Youth.") = some "fc_united-youth." ∧
    TeamService._normalize_name "FC United-Youth." = "fc_united_youth" ∧
    Team.set_normalized_name none (some "FC United-Youth.")
      ≠ some (TeamService._normalize_name "FC United-Youth.") := by
  refine ⟨by decide, by decide, by decide⟩

theorem clean_chain (l : List Char) (h : ∀ c ∈ l, c ≠ '-' ∧ c ≠ '.') :
    (l.map normCharFull).filter (fun c => c != '.')
      = (l.map lowerChar).map (replC ' ' '_') := by
  induction l with
  | nil => rfl
  | cons c t ih =>
    obtain ⟨hc1, hc2⟩ := h c (List.mem_cons_self c t)
    have ht := fun x hx => h x (List.mem_cons_of_mem c hx)
    have he1 : lowerChar c ≠ '-' := fun he =>
      hc1 (lowerChar_eq_of_not_lower c _ (by decide) he)
    have he2 : lowerChar c ≠ '.' := fun he =>
      hc2 (lowerChar_eq_of_not_lower c _ (by decide) he)
    have hd1 : replC ' ' '_' (lowerChar c) ≠ '-' := by
      by_cases hsp : lowerChar c = ' '
      · simp [replC, hsp]
      · simpa [replC, hsp] using he1
    have hd2 : replC ' ' '_' (lowerChar c) ≠ '.' := by
      by_cases hsp : lowerChar c = ' '
      · simp [replC, hsp]
      · simpa [replC, hsp] using he2
    have hfull : normCharFull c = replC ' ' '_' (lowerChar c) := if_neg hd1
    simp only [List.map_cons, List.filter_cons, hfull]
    rw [if_pos (by simpa using hd2)]
    rw [ih ht]

/-- C6 (amended): for every non-empty name containing no hyphen and no
period, the `Team` model validator and `TeamService._normalize_name`
derive the same normalized name; on names containing a hyphen or a period
they differ, because the validator only lowercases and replaces spaces. -/
theorem c6_validator_matches_service (name : String) (hne : name ≠ "")
    (hclean : ∀ c ∈ name.data, c ≠ '-' ∧ c ≠ '.') :
    Team.set_normalized_name none (some name)
      = some (TeamService._normalize_name name) := by
  have hfalsy : pyStrIsFalsy (some name) = false := by
    simp [pyStrIsFalsy, hne]
  rw [_normalize_name_eq_pipe]
  simp only [Team.set_normalized_name, pyStrIsFalsy, hfalsy]
  rw [clean_chain name.data hclean]
  simp [pyReplaceChar, pyLower, Option.getD, List.map_map, beq_iff_eq, hne]

/-- Witness for the amended C6 on the concrete name "Lake City". -/
theorem c6_validator_matches_service_witness :
    Team.set_normalized_name none (some "Lake City")
      = some (TeamService._normalize_name "Lake City") :=
  c6_validator_matches_service "Lake City" (by decide) (by decide)

/-! ## Transactions and the recruit cascade delete

`db_utils.execute_transaction` (src/db/db_utils.py, lines 61-71) runs a
list of statements inside `conn.transaction()`: statements execute in
order; if one raises, the transaction rolls the database back to its
initial state and the exception propagates to the caller.

A statement is modelled as a function from the database state to
`Except DbErr` of a new state; the `fail : Bool` parameters inject the
"forced to fail (simulated)" storage failures of the spec.
-/

/-- A storage-layer failure (asyncpg exception). -/
inductive DbErr where
  | failure
deriving DecidableEq, Repr

/-- Sequential execution of the statements of a transaction body; the
first failing statement aborts the rest. -/
def runStmts {σ : Type} : List (σ → Except DbErr σ) → σ → Except DbErr σ
  | [], db => .ok db
  | s :: rest, db =>
    match s db with
    | .error e => .error e
    | .ok db2 => runStmts rest db2

/-- Embedding of `db_utils.execute_transaction`: all statements apply, or — when any
statement fails — the state rolls back to the initial one and the error
reaches the caller. -/
def execute_transaction {σ : Type} (queries : List (σ → Except DbErr σ))
    (db : σ) : σ × Option DbErr :=
  match runStmts queries db with
  | .ok db2 => (db2, none)
  | .error e => (db, some e)

/-- A row of the `recruits` table (key fields). -/
structure RecruitRow where
  id : Nat
  user_id : String
deriving DecidableEq, Repr

/-- A row of the `schedules` table (key fields; `recruit_id` is a nullable
foreign key). -/
structure ScheduleRow where
  id : Nat
  recruit_id : Option Nat
deriving DecidableEq, Repr

/-- A row of the `extraction_feedback` table (key fields; `recruit_id` is
non-nullable on the model). -/
structure FeedbackRow where
  id : Nat
  recruit_id : Nat
deriving DecidableEq, Repr

/-- The three tables touched by `RecruitService.delete_cascade`. -/
structure RecDb where
  recruits : List RecruitRow
  schedules : List ScheduleRow
  feedback : List FeedbackRow
deriving DecidableEq, Repr

/-- Statement `DELETE FROM extraction_feedback WHERE recruit_id = $1`. -/
def delete_feedback_stmt (fail : Bool) (rid : Nat) (db : RecDb) : Except DbErr RecDb :=
  if fail then .error .failure
  else .ok { db with feedback := db.feedback.filter (fun r => r.recruit_id != rid) }

/-- Statement `DELETE FROM schedules WHERE recruit_id = $1`. -/
def delete_schedules_stmt (fail : Bool) (rid : Nat) (db : RecDb) : Except DbErr RecDb :=
  if fail then .error .failure
  else .ok { db with schedules := db.schedules.filter (fun r => r.recruit_id != some rid) }

/-- Statement `DELETE FROM recruits WHERE id = $1`. -/
def delete_recruit_stmt (fail : Bool) (rid : Nat) (db : RecDb) : Except DbErr RecDb :=
  if fail then .error .failure
  else .ok { db with recruits := db.recruits.filter (fun r => r.id != rid) }

/-- Embedding of `BaseService.get_by_id` specialized to the recruits table:
`SELECT * FROM recruits WHERE id = $1`, first row or absent. -/
def RecruitService.get_by_id (db : RecDb) (rid : Nat) : Option RecruitRow :=
  (db.recruits.filter (fun r => r.id == rid)).head?

/-- Embedding of `BaseService.delete` specialized to the recruits table:
`DELETE FROM recruits WHERE id = $1 RETURNING id`, true iff a row was
removed.  There is no handler here: a storage failure propagates
unmodified to the caller. -/
def RecruitService.delete (fail : Bool) (db : RecDb) (rid : Nat) :
    Except DbErr (RecDb × Bool) :=
  match delete_recruit_stmt fail rid db with
  | .error e => .error e
  | .ok db2 => .ok (db2, db.recruits.any (fun r => r.id == rid))

/-- Embedding of `RecruitService.delete_cascade` (src/services/recruit_service.py,
lines 211-242): returns false if the recruit does not exist; otherwise
deletes feedback, schedules and the recruit row in one transaction.  The
surrounding `try`/`except` catches any failure and returns false. -/
def RecruitService.delete_cascade (failFeedback failSchedules failRecruit : Bool)
    (db : RecDb) (rid : Nat) : RecDb × Bool :=
  match RecruitService.get_by_id db rid with
  | none => (db, false)
  | some _ =>
    match execute_transaction
        [delete_feedback_stmt failFeedback rid,
         delete_schedules_stmt failSchedules rid,
         delete_recruit_stmt failRecruit rid] db with
    | (db2, none) => (db2, true)
    | (db2, some _) => (db2, false)

/-- The state in which all three classes of rows belonging to recruit
`rid` have been removed. -/
def cascadeDeleted (db : RecDb) (rid : Nat) : RecDb :=
  { recruits := db.recruits.filter (fun r => r.id != rid),
    schedules := db.schedules.filter (fun r => r.recruit_id != some rid),
    feedback := db.feedback.filter (fun r => r.recruit_id != rid) }

/-- C1: `delete_cascade` removes the recruit's feedback and schedule rows
together with the recruit row as one atomic transaction — with no injected
failure all three deletes apply, with any injected failure none do (in
particular, when the feedback delete is forced to fail the recruit row and
its schedules still exist afterward) — and when no recruit with the id
exists it returns false without touching the state. -/
theorem c1_delete_cascade_atomic (ff fs fr : Bool) (db : RecDb) (rid : Nat) :
    (RecruitService.get_by_id db rid = none →
      RecruitService.delete_cascade ff fs fr db rid = (db, false)) ∧
    (RecruitService.get_by_id db rid ≠ none →
      (ff = false → fs = false → fr = false →
        RecruitService.delete_cascade ff fs fr db rid = (cascadeDeleted db rid, true)) ∧
      ((ff = true ∨ fs = true ∨ fr = true) →
        RecruitService.delete_cascade ff fs fr db rid = (db, false)) ∧
      (ff = true →
        (RecruitService.delete_cascade ff fs fr db rid).1.recruits = db.recruits ∧
        (RecruitService.delete_cascade ff fs fr db rid).1.schedules = db.schedules)) := by
  constructor
  · intro h
    simp [RecruitService.delete_cascade, h]
  · intro h
    cases hg : RecruitService.get_by_id db rid with
    | none => exact absurd hg h
    | some r =>
      simp only [RecruitService.delete_cascade, hg]
      cases ff <;> cases fs <;> cases fr <;>
        simp [execute_transaction, runStmts, delete_feedback_stmt,
          delete_schedules_stmt, delete_recruit_stmt, cascadeDeleted]

/-- A concrete three-table state used by the cascade-delete witnesses. -/
def dbC1 : RecDb :=
  { recruits := [⟨1, "u1"⟩, ⟨2, "u1"⟩],
    schedules := [⟨10, some 1⟩, ⟨11, some 2⟩, ⟨12, none⟩],
    feedback := [⟨20, 1⟩, ⟨21, 2⟩] }

/-- Witness for C1 at a concrete state: a clean run deletes all three row
classes, a forced feedback failure leaves the state untouched, and a
missing recruit id returns false. -/
theorem c1_delete_cascade_atomic_witness :
    RecruitService.delete_cascade false false false dbC1 1 = (cascadeDeleted dbC1 1, true) ∧
    RecruitService.delete_cascade true false false dbC1 1 = (dbC1, false) ∧
    RecruitService.delete_cascade false false false dbC1 99 = (dbC1, false) :=
  ⟨((c1_delete_cascade_atomic false false false dbC1 1).2 (by decide)).1 rfl rfl rfl,
   ((c1_delete_cascade_atomic true false false dbC1 1).2 (by decide)).2.1 (Or.inl rfl),
   (c1_delete_cascade_atomic false false false dbC1 99).1 (by decide)⟩

/-- C3 counterexample: with the feedback delete forced to fail, the
transaction body raises (the underlying store reports an error), yet
`delete_cascade` returns the normal value `false` instead of propagating
the failure — its `try`/`except` converts the storage error into a return
value. -/
theorem c3_counterexample :
    runStmts
        [delete_feedback_stmt true 1, delete_schedules_stmt false 1,
         delete_recruit_stmt false 1] dbC1 = .error .failure ∧
    RecruitService.delete_cascade true false false dbC1 1 = (dbC1, false) :=
  ⟨rfl, by decide⟩

/-- C3 (amended): a storage failure propagates unmodified through the
repository operations that have no handler — the inherited
`RecruitService.delete` returns the underlying error unchanged — but
`delete_cascade` is, besides `bulk_create_aliases`, an exception: it
catches any failure of its transaction and converts it into a `false`
return with the rolled-back (unchanged) state. -/
theorem c3_failure_propagation (fail : Bool) (db : RecDb) (rid : Nat) :
    (fail = true → RecruitService.delete fail db rid = .error .failure) ∧
    (∀ ff fs fr : Bool, (ff || fs || fr) = true →
      RecruitService.delete_cascade ff fs fr db rid = (db, false)) := by
  constructor
  · intro h
    subst h
    simp [RecruitService.delete, delete_recruit_stmt]
  · intro ff fs fr h
    cases hg : RecruitService.get_by_id db rid with
    | none => simp [RecruitService.delete_cascade, hg]
    | some r =>
      simp only [RecruitService.delete_cascade, hg]
      cases ff <;> cases fs <;> cases fr <;>
        simp_all [execute_transaction, runStmts, delete_feedback_stmt,
          delete_schedules_stmt, delete_recruit_stmt]

/-- Witness for the amended C3 at a concrete state and forced failure. -/
theorem c3_failure_propagation_witness :
    RecruitService.delete true dbC1 1 = .error .failure ∧
    RecruitService.delete_cascade false true false dbC1 1 = (dbC1, false) :=
  ⟨(c3_failure_propagation true dbC1 1).1 rfl,
   (c3_failure_propagation true dbC1 1).2 false true false rfl⟩

/-! ## User creation with settings

`UserService.create_with_settings` (src/services/user_service.py, lines
15-34) creates the user and then, when settings are supplied, overwrites
their `user_id` with the created user's id and creates them.  Although its
docstring says "in a transaction", the two inserts are two independent
`execute_query` calls, each committing on its own; `execute_transaction`
is never used here.  The `fail*` parameters inject a storage failure into
the respective insert.
-/

/-- A row of the `users` table (key fields; the id is a caller-supplied
opaque string). -/
structure UserRow where
  id : String
  email : String
deriving DecidableEq, Repr

/-- A row of the `user_settings` table (key fields). -/
structure SettingsRow where
  user_id : String
  fetch_frequency : String
deriving DecidableEq, Repr

/-- The two tables touched by `create_with_settings`. -/
structure UserDb where
  users : List UserRow
  user_settings : List SettingsRow
deriving DecidableEq, Repr

/-- Embedding of `BaseService.create` specialized to the users table:
`INSERT INTO users (...) VALUES (...) RETURNING *` (string key, inserted
as supplied). -/
def UserService.create (fail : Bool) (db : UserDb) (u : UserRow) :
    Except DbErr (UserDb × UserRow) :=
  if fail then .error .failure
  else .ok ({ db with users := db.users ++ [u] }, u)

/-- Embedding of `BaseService.create` specialized to the user_settings table. -/
def UserSettingsService.create (fail : Bool) (db : UserDb) (s : SettingsRow) :
    Except DbErr (UserDb × SettingsRow) :=
  if fail then .error .failure
  else .ok ({ db with user_settings := db.user_settings ++ [s] }, s)

/-- Embedding of `UserService.create_with_settings`: user insert, then settings insert,
as two separate auto-committing statements.  The pair is the database
state reached (mutations already issued stay) and the outcome the caller
sees (an uncaught failure propagates). -/
def UserService.create_with_settings (failUser failSettings : Bool) (db : UserDb)
    (user : UserRow) (settings : Option SettingsRow) :
    UserDb × Except DbErr (UserRow × Option SettingsRow) :=
  match UserService.create failUser db user with
  | .error e => (db, .error e)
  | .ok (db1, created_user) =>
    match settings with
    | none => (db1, .ok (created_user, none))
    | some s =>
      match UserSettingsService.create failSettings db1
          { s with user_id := created_user.id } with
      | .error e => (db1, .error e)
      | .ok (db2, created_settings) => (db2, .ok (created_user, some created_settings))

/-- An empty two-table user state. -/
def dbU0 : UserDb := { users := [], user_settings := [] }

/-- The concrete user and settings of the C4 failing input. -/
def userU1 : UserRow := { id := "u1", email := "u1@example.com" }

/-- Settings supplied to `create_with_settings` in the C4 failing input. -/
def settingsS1 : SettingsRow := { user_id := "", fetch_frequency := "manual" }

/-- C4 evaluated at the failing input: when the settings insert fails, the
failure reaches the caller, yet the user row is already committed and
remains observable — the user insert and settings insert are not executed
as one atomic transaction, contradicting both the claim and the
function's own docstring. -/
theorem c4_user_insert_survives_settings_failure :
    (UserService.create_with_settings false true dbU0 userU1 (some settingsS1)).2
      = .error .failure ∧
    (UserService.create_with_settings false true dbU0 userU1 (some settingsS1)).1.users
      = [userU1] :=
  ⟨rfl, rfl⟩

/-! ## Content cache

`GPTCacheService` (src/services/gpt_cache_service.py).  `generate_hash`
is an MD5 hex digest of the UTF-8 encoded content; the claims only rely
on it being a deterministic function of the content, so it is passed in
as an explicit `hash : String → String` parameter.  `result_json` holds
the serialized (`json.dumps`) result text.
-/

/-- A row of the `gpt_cache` table. -/
structure CacheRow where
  id : Nat
  content_hash : String
  email : Option String
  result_json : String
  created_at : Nat
  updated_at : Nat
deriving DecidableEq, Repr

/-- The next database-assigned integer key for the cache table. -/
def nextCacheId (db : List CacheRow) : Nat := (db.map (fun r => r.id)).foldr max 0 + 1

/-- The effect of the SET clause of the update branch of
`create_or_update`: overwrite `result_json`, `email` and `updated_at`. -/
def updRow (r : CacheRow) (result : String) (email : Option String) (now : Nat) : CacheRow :=
  { r with result_json := result, email := email, updated_at := now }

/-- The row inserted by the create branch of `create_or_update`
(timestamps from the model's `utcnow` defaults, key database-assigned). -/
def newCacheRow (db : List CacheRow) (h : String) (email : Option String)
    (result : String) (now : Nat) : CacheRow :=
  { id := nextCacheId db, content_hash := h, email := email,
    result_json := result, created_at := now, updated_at := now }

/-- Embedding of `GPTCacheService.get_by_content_hash`:
`SELECT * FROM gpt_cache WHERE content_hash = $1`, first row or absent. -/
def GPTCacheService.get_by_content_hash (db : List CacheRow) (h : String) : Option CacheRow :=
  (db.filter (fun r => r.content_hash == h)).head?

/-- Embedding of `GPTCacheService.create_or_update` (src/services/gpt_cache_service.py,
lines 53-94): hash the content; if an entry with that hash exists, update
its result, email and update timestamp in place
(`UPDATE gpt_cache SET ... WHERE content_hash = $1 RETURNING *`),
otherwise insert a new entry. -/
def GPTCacheService.create_or_update (hash : String → String) (db : List CacheRow)
    (content result : String) (email : Option String) (now : Nat) :
    List CacheRow × CacheRow :=
  let content_hash := hash content
  match GPTCacheService.get_by_content_hash db content_hash with
  | some existing =>
    (db.map (fun r => if r.content_hash == content_hash then updRow r result email now else r),
     updRow existing result email now)
  | none =>
    let row := newCacheRow db content_hash email result now
    (db ++ [row], row)

/-- C2: the upsert law.  Starting from a state with no entry for the
content's hash, the first call inserts exactly one new entry and a second
call with the same content overwrites that entry in place — the final
state has exactly one entry keyed by the content's hash, holding the
second result, email tag and update timestamp (last-writer-wins), and no
second entry is ever created. -/
theorem c2_create_or_update_upsert (hash : String → String) (db : List CacheRow)
    (content r1 r2 : String) (e1 e2 : Option String) (t1 t2 : Nat)
    (habs : ∀ r ∈ db, r.content_hash ≠ hash content) :
    (GPTCacheService.create_or_update hash db content r1 e1 t1).1
      = db ++ [newCacheRow db (hash content) e1 r1 t1] ∧
    (GPTCacheService.create_or_update hash
        ((GPTCacheService.create_or_update hash db content r1 e1 t1).1) content r2 e2 t2).1
      = db ++ [updRow (newCacheRow db (hash content) e1 r1 t1) r2 e2 t2] ∧
    (((GPTCacheService.create_or_update hash
        ((GPTCacheService.create_or_update hash db content r1 e1 t1).1) content r2 e2 t2).1).filter
      (fun r => r.content_hash == hash content)).length = 1 ∧
    ∀ r ∈ (GPTCacheService.create_or_update hash
        ((GPTCacheService.create_or_update hash db content r1 e1 t1).1) content r2 e2 t2).1,
      r.content_hash = hash content →
        r.result_json = r2 ∧ r.email = e2 ∧ r.updated_at = t2 := by
  have hfilter : db.filter (fun r => r.content_hash == hash content) = [] :=
    List.filter_eq_nil_iff.mpr (fun r hr => by simp [habs r hr])
  have hget : GPTCacheService.get_by_content_hash db (hash content) = none := by
    simp [GPTCacheService.get_by_content_hash, hfilter]
  have h1 : (GPTCacheService.create_or_update hash db content r1 e1 t1).1
      = db ++ [newCacheRow db (hash content) e1 r1 t1] := by
    simp [GPTCacheService.create_or_update, hget]
  have hnch : (newCacheRow db (hash content) e1 r1 t1).content_hash = hash content := rfl
  have hget2 : GPTCacheService.get_by_content_hash
      (db ++ [newCacheRow db (hash content) e1 r1 t1]) (hash content)
      = some (newCacheRow db (hash content) e1 r1 t1) := by
    simp [GPTCacheService.get_by_content_hash, List.filter_append, hfilter, hnch]
  have hmapdb : db.map (fun r =>
      if r.content_hash == hash content then updRow r r2 e2 t2 else r) = db := by
    have hid : ∀ r ∈ db,
        (if r.content_hash == hash content then updRow r r2 e2 t2 else r) = id r :=
      fun r hr => by simp [habs r hr]
    rw [List.map_congr_left hid, List.map_id]
  have h2 : (GPTCacheService.create_or_update hash
      ((GPTCacheService.create_or_update hash db content r1 e1 t1).1) content r2 e2 t2).1
      = db ++ [updRow (newCacheRow db (hash content) e1 r1 t1) r2 e2 t2] := by
    rw [h1]
    simp only [GPTCacheService.create_or_update, hget2]
    rw [List.map_append, hmapdb]
    simp [hnch]
  refine ⟨h1, h2, ?_, ?_⟩
  · rw [h2, List.filter_append, hfilter]
    simp [updRow, hnch]
  · intro r hr hch
    rw [h2] at hr
    rcases List.mem_append.mp hr with hmem | hmem
    · exact absurd hch (habs r hmem)
    · rcases List.mem_singleton.mp hmem with rfl
      exact ⟨rfl, rfl, rfl⟩

/-- Witness for C2: two calls with content "abc" and results "one", "two"
starting from the empty cache leave exactly the single overwritten
entry. -/
theorem c2_create_or_update_upsert_witness :
    (GPTCacheService.create_or_update (fun s => s)
        ((GPTCacheService.create_or_update (fun s => s) [] "abc" "one" none 1).1)
        "abc" "two" (some "x") 2).1
      = [updRow (newCacheRow [] "abc" none "one" 1) "two" (some "x") 2] := by
  have h := (c2_create_or_update_upsert (fun s => s) [] "abc" "one" "two"
    none (some "x") 1 2 (by simp)).2.1
  simpa using h

/-! ## Team aliases

`TeamService.add_alias` (src/services/team_service.py, lines 111-145) and
the `TeamAliasService` lookups it delegates to.
-/

/-- A row of the `teams` table (key fields). -/
structure TeamRow where
  id : Nat
  name : String
  normalized_name : String
deriving DecidableEq, Repr

/-- A row of the `team_aliases` table. -/
structure AliasRow where
  id : Nat
  team_id : Nat
  «alias» : String
  source : Option String
deriving DecidableEq, Repr

/-- The two tables touched by `add_alias`. -/
structure TeamDb where
  teams : List TeamRow
  team_aliases : List AliasRow
deriving DecidableEq, Repr

/-- Embedding of `BaseService.get_by_id` specialized to the teams table. -/
def TeamService.get_by_id (db : TeamDb) (tid : Nat) : Option TeamRow :=
  (db.teams.filter (fun t => t.id == tid)).head?

/-- Embedding of `TeamAliasService.get_by_alias`:
`SELECT * FROM team_aliases WHERE alias = $1`, first row or absent. -/
def TeamAliasService.get_by_alias (db : TeamDb) (a : String) : Option AliasRow :=
  (db.team_aliases.filter (fun r => r.«alias» == a)).head?

/-- The next database-assigned integer key for the alias table. -/
def nextAliasId (db : TeamDb) : Nat := (db.team_aliases.map (fun r => r.id)).foldr max 0 + 1

/-- Embedding of `TeamService.add_alias`: absent if the team does not exist; if an
alias row with that string already exists (for any team), return it
without writing; otherwise insert a new alias row. -/
def TeamService.add_alias (db : TeamDb) (team_id : Nat) (aliasStr : String)
    (source : Option String) : TeamDb × Option AliasRow :=
  match TeamService.get_by_id db team_id with
  | none => (db, none)
  | some _ =>
    match TeamAliasService.get_by_alias db aliasStr with
    | some existing_alias => (db, some existing_alias)
    | none =>
      let row : AliasRow :=
        { id := nextAliasId db, team_id := team_id, «alias» := aliasStr, source := source }
      ({ db with team_aliases := db.team_aliases ++ [row] }, some row)

/-- The global alias-uniqueness invariant: no two alias rows carry the
same alias string. -/
def aliasStringsUnique (db : TeamDb) : Prop :=
  (db.team_aliases.map (fun r => r.«alias»)).Nodup

/-- C7: `add_alias` returns absent when the team does not exist; when an
alias row with the string already exists — whatever team owns it — it
returns that row unchanged and writes nothing; and every `add_alias` call
preserves the global uniqueness of alias strings. -/
theorem c7_add_alias_unique (db : TeamDb) (tid : Nat) (a : String) (src : Option String) :
    (TeamService.get_by_id db tid = none →
      TeamService.add_alias db tid a src = (db, none)) ∧
    (TeamService.get_by_id db tid ≠ none →
      ∀ ex, TeamAliasService.get_by_alias db a = some ex →
        TeamService.add_alias db tid a src = (db, some ex)) ∧
    (aliasStringsUnique db → aliasStringsUnique (TeamService.add_alias db tid a src).1) := by
  refine ⟨fun h => by simp [TeamService.add_alias, h], ?_, ?_⟩
  · intro h ex hex
    cases hg : TeamService.get_by_id db tid with
    | none => exact absurd hg h
    | some t => simp [TeamService.add_alias, hg, hex]
  · intro huniq
    cases hg : TeamService.get_by_id db tid with
    | none => simpa [TeamService.add_alias, hg] using huniq
    | some t =>
      cases hal : TeamAliasService.get_by_alias db a with
      | some ex => simpa [TeamService.add_alias, hg, hal] using huniq
      | none =>
        have hnil : db.team_aliases.filter (fun r => r.«alias» == a) = [] := by
          simpa [TeamAliasService.get_by_alias, List.head?_eq_none_iff] using hal
        have habsent : ∀ r ∈ db.team_aliases, r.«alias» ≠ a := by
          intro r hr
          have := List.filter_eq_nil_iff.mp hnil r hr
          simpa using this
        simp only [TeamService.add_alias, hg, hal]
        simp only [aliasStringsUnique] at huniq ⊢
        rw [List.map_append, List.nodup_append]
        refine ⟨huniq, by simp, ?_⟩
        intro x hx
        rcases List.mem_map.mp hx with ⟨r, hr, rfl⟩
        intro hmem
        exact habsent r hr (by simpa using hmem)

/-- A concrete two-team state whose single alias row belongs to team 2. -/
def dbT1 : TeamDb :=
  { teams := [{ id := 1, name := "Lake City", normalized_name := "lake_city" },
              { id := 2, name := "Riverside", normalized_name := "riverside" }],
    team_aliases := [{ id := 5, team_id := 2, «alias» := "LC United", source := some "import" }] }

/-- Witness for C7: a missing team yields absent, an alias owned by the
other team is returned unchanged with no write, and uniqueness of alias
strings survives an insert. -/
theorem c7_add_alias_unique_witness :
    TeamService.add_alias dbT1 3 "X" none = (dbT1, none) ∧
    TeamService.add_alias dbT1 1 "LC United" none
      = (dbT1, some { id := 5, team_id := 2, «alias» := "LC United", source := some "import" }) ∧
    aliasStringsUnique (TeamService.add_alias dbT1 1 "Lakers" none).1 :=
  ⟨(c7_add_alias_unique dbT1 3 "X" none).1 (by decide),
   (c7_add_alias_unique dbT1 1 "LC United" none).2.1 (by decide) _ rfl,
   (c7_add_alias_unique dbT1 1 "Lakers" none).2.2 (by unfold aliasStringsUnique; decide)⟩

/-! ## The generic repository update

`BaseService.update` (src/services/base_service.py, lines 83-118) over an
arbitrary table.  A row is a total assignment of a `Value` to every column
name; the update payload is the (ordered, unique-keyed) item list of the
Python dict. -/

/-- A database value. -/
inductive Value where
  | vnull
  | vint (n : Int)
  | vstr (s : String)
  | vbool (b : Bool)
deriving DecidableEq, Repr

/-- A table row: a total assignment of values to column names. -/
abbrev Row := String → Value

/-- Embedding of `BaseService.get_by_id`: `SELECT * FROM t WHERE id = $1`, first row or
absent. -/
def BaseService.get_by_id (tbl : List Row) (idv : Value) : Option Row :=
  (tbl.filter (fun r => r "id" == idv)).head?

/-- The effect of the generated SET clause on one row: the supplied fields
take their new values, all other columns keep theirs. -/
def applyFields (r : Row) (data : List (String × Value)) : Row :=
  data.foldl (fun acc kv => fun k => if k = kv.1 then kv.2 else acc k) r

/-- Statement `UPDATE t SET ... WHERE id = $1 RETURNING *`: the new table and the
list of updated rows. -/
def sqlUpdateReturning (tbl : List Row) (idv : Value) (data : List (String × Value)) :
    List Row × List Row :=
  (tbl.map (fun r => if r "id" == idv then applyFields r data else r),
   (tbl.filter (fun r => r "id" == idv)).map (fun r => applyFields r data))

/-- Embedding of `BaseService.update`: strip the primary key from the payload; an empty
remaining payload degenerates to `get_by_id` with no write; otherwise run
the UPDATE and return the first updated row, or absent if none matched. -/
def BaseService.update (tbl : List Row) (idv : Value) (payload : List (String × Value)) :
    List Row × Option Row :=
  let data := payload.filter (fun kv => kv.1 != "id")
  if data.isEmpty then (tbl, BaseService.get_by_id tbl idv)
  else ((sqlUpdateReturning tbl idv data).1, (sqlUpdateReturning tbl idv data).2.head?)

theorem applyFields_of_not_mem (data : List (String × Value)) (k : String) :
    ∀ r : Row, (∀ kv ∈ data, kv.1 ≠ k) → applyFields r data k = r k := by
  induction data with
  | nil => intro r _; rfl
  | cons kv rest ih =>
    intro r h
    have hk : kv.1 ≠ k := h kv (List.mem_cons_self kv rest)
    have hrest : ∀ x ∈ rest, x.1 ≠ k := fun x hx => h x (List.mem_cons_of_mem kv hx)
    calc applyFields r (kv :: rest) k
        = applyFields (fun k2 => if k2 = kv.1 then kv.2 else r k2) rest k := rfl
      _ = (if k = kv.1 then kv.2 else r k) := ih _ hrest
      _ = r k := if_neg (fun hkk => hk hkk.symm)

theorem applyFields_of_mem (data : List (String × Value)) (k : String) (v : Value) :
    ∀ r : Row, (data.map Prod.fst).Nodup → (k, v) ∈ data → applyFields r data k = v := by
  induction data with
  | nil => intro r _ h; exact absurd h (List.not_mem_nil _)
  | cons kv rest ih =>
    intro r hnd hmem
    have hnd2 : kv.1 ∉ rest.map Prod.fst ∧ (rest.map Prod.fst).Nodup :=
      List.nodup_cons.mp (by simpa using hnd)
    rcases List.mem_cons.mp hmem with heq | hmem2
    · have hk1 : kv.1 = k := by rw [← heq]
      have hnotin : ∀ x ∈ rest, x.1 ≠ k := by
        intro x hx hxk
        exact hnd2.1 (hk1 ▸ hxk ▸ List.mem_map_of_mem Prod.fst hx)
      calc applyFields r (kv :: rest) k
          = applyFields (fun k2 => if k2 = kv.1 then kv.2 else r k2) rest k := rfl
        _ = (if k = kv.1 then kv.2 else r k) := applyFields_of_not_mem rest k _ hnotin
        _ = v := by rw [if_pos hk1.symm, ← heq]
    · calc applyFields r (kv :: rest) k
          = applyFields (fun k2 => if k2 = kv.1 then kv.2 else r k2) rest k := rfl
        _ = v := ih _ hnd2.2 hmem2

/-- C9: `BaseService.update` silently strips the primary key from the
payload; with an empty remaining payload it performs no write and returns
`get_by_id` (no column, `updated_at` included, modified); with rows not
matching the id it returns absent and leaves the table unchanged;
otherwise it rewrites exactly the matching rows, where a column named in
the payload takes the supplied value and every other column keeps its old
value. -/
theorem c9_base_service_update (tbl : List Row) (idv : Value)
    (payload : List (String × Value)) :
    (BaseService.update tbl idv payload
      = BaseService.update tbl idv (payload.filter (fun kv => kv.1 != "id"))) ∧
    (payload.filter (fun kv => kv.1 != "id") = [] →
      BaseService.update tbl idv payload = (tbl, BaseService.get_by_id tbl idv)) ∧
    ((∀ r ∈ tbl, (r "id" == idv) = false) →
      (BaseService.update tbl idv payload).1 = tbl ∧
      (BaseService.update tbl idv payload).2 = none) ∧
    ((BaseService.update tbl idv payload).1
      = tbl.map (fun r => if r "id" == idv
          then applyFields r (payload.filter (fun kv => kv.1 != "id")) else r)) ∧
    (∀ (r : Row) (k : String),
      (∀ kv ∈ payload.filter (fun kv => kv.1 != "id"), kv.1 ≠ k) →
      applyFields r (payload.filter (fun kv => kv.1 != "id")) k = r k) ∧
    (∀ (r : Row) (k : String) (v : Value),
      ((payload.filter (fun kv => kv.1 != "id")).map Prod.fst).Nodup →
      (k, v) ∈ payload.filter (fun kv => kv.1 != "id") →
      applyFields r (payload.filter (fun kv => kv.1 != "id")) k = v) := by
  have hff : (payload.filter (fun kv => kv.1 != "id")).filter (fun kv => kv.1 != "id")
      = payload.filter (fun kv => kv.1 != "id") := by
    rw [List.filter_filter]
    exact List.filter_congr (fun a _ => Bool.and_self _)
  refine ⟨?_, ?_, ?_, ?_,
    fun r k h => applyFields_of_not_mem _ _ _ h,
    fun r k v hnd hmem => applyFields_of_mem _ _ _ _ hnd hmem⟩
  · simp only [BaseService.update, hff]
  · intro h
    simp [BaseService.update, h]
  · intro hno
    have hfe : tbl.filter (fun r => r "id" == idv) = [] :=
      List.filter_eq_nil_iff.mpr (fun r hr => by simp [hno r hr])
    by_cases he : payload.filter (fun kv => kv.1 != "id") = []
    · constructor
      · simp [BaseService.update, he]
      · simp [BaseService.update, he, BaseService.get_by_id, hfe]
    · have hne : (payload.filter (fun kv => kv.1 != "id")).isEmpty = false := by
        simpa [List.isEmpty_iff] using he
      constructor
      · have hid : ∀ r ∈ tbl,
            (if r "id" == idv
              then applyFields r (payload.filter (fun kv => kv.1 != "id")) else r) = id r :=
          fun r hr => by simp [hno r hr]
        simp only [BaseService.update, hne, Bool.false_eq_true, if_false, sqlUpdateReturning]
        rw [List.map_congr_left hid, List.map_id]
      · simp [BaseService.update, hne, sqlUpdateReturning, hfe]
  · by_cases he : payload.filter (fun kv => kv.1 != "id") = []
    · have : ∀ r ∈ tbl,
          (if r "id" == idv
            then applyFields r (payload.filter (fun kv => kv.1 != "id")) else r) = id r := by
        intro r hr
        rw [he]
        by_cases hc : (r "id" == idv) = true <;> simp [hc, applyFields]
      rw [List.map_congr_left this, List.map_id]
      simp [BaseService.update, he]
    · have hne : (payload.filter (fun kv => kv.1 != "id")).isEmpty = false := by
        simpa [List.isEmpty_iff] using he
      simp [BaseService.update, hne, sqlUpdateReturning]

/-- A concrete row with id 1, an email and an update timestamp. -/
def rowA : Row := fun k =>
  if k = "id" then Value.vint 1
  else if k = "email" then Value.vstr "a@x"
  else if k = "updated_at" then Value.vint 100
  else Value.vnull

/-- Witness for C9: empty payload degenerates to `get_by_id` with the
table untouched; updating `email` leaves `updated_at` unchanged and sets
`email`; updating a missing id returns absent. -/
theorem c9_base_service_update_witness :
    BaseService.update [rowA] (Value.vint 1) []
      = ([rowA], BaseService.get_by_id [rowA] (Value.vint 1)) ∧
    applyFields rowA [("email", Value.vstr "b@x")] "updated_at" = rowA "updated_at" ∧
    applyFields rowA [("email", Value.vstr "b@x")] "email" = Value.vstr "b@x" ∧
    (BaseService.update ([] : List Row) (Value.vint 1) [("email", Value.vstr "b@x")]).2
      = none :=
  ⟨(c9_base_service_update [rowA] (Value.vint 1) []).2.1 rfl,
   (c9_base_service_update [rowA] (Value.vint 1)
      [("email", Value.vstr "b@x")]).2.2.2.2.1 rowA "updated_at" (by decide),
   (c9_base_service_update [rowA] (Value.vint 1)
      [("email", Value.vstr "b@x")]).2.2.2.2.2 rowA "email" (Value.vstr "b@x")
      (by decide) (by decide),
   ((c9_base_service_update ([] : List Row) (Value.vint 1)
      [("email", Value.vstr "b@x")]).2.2.1 (by simp)).2⟩

/-! ## Email-queue status updates

`EmailQueueService.update_status` (src/services/email_service.py, lines
277-314).  The two `datetime.utcnow()` calls (for `processed_at` and for
`updated_at`) are the explicit parameters `tProcessed` and `tNow`. -/

/-- The `ProcessingStatus` enum of src/models/email.py. -/
inductive ProcessingStatus where
  | queued
  | processing
  | completed
  | failed
deriving DecidableEq, Repr

/-- A row of the `email_queue` table (key fields). -/
structure QueueRow where
  id : Nat
  status : ProcessingStatus
  priority : Int
  processed_at : Option Nat
  error_message : Option String
  updated_at : Nat
deriving DecidableEq, Repr

/-- The SET clause of `update_status`: status, `processed_at`,
`error_message` and `updated_at` are all overwritten. -/
def updateStatusRow (r : QueueRow) (status : ProcessingStatus)
    (processed_at : Option Nat) (error_message : Option String) (tNow : Nat) : QueueRow :=
  { r with status := status, processed_at := processed_at,
           error_message := error_message, updated_at := tNow }

/-- Embedding of `EmailQueueService.update_status`: `processed_at` becomes the current
time for COMPLETED/FAILED and null otherwise; the supplied error message
(null when omitted) is always written; the first updated row is returned,
or absent if the id matched nothing. -/
def EmailQueueService.update_status (tbl : List QueueRow) (queue_id : Nat)
    (status : ProcessingStatus) (error_message : Option String)
    (tProcessed tNow : Nat) : List QueueRow × Option QueueRow :=
  let processed_at :=
    if status = ProcessingStatus.completed ∨ status = ProcessingStatus.failed
      then some tProcessed else none
  (tbl.map (fun r => if r.id == queue_id
      then updateStatusRow r status processed_at error_message tNow else r),
   ((tbl.filter (fun r => r.id == queue_id)).map
      (fun r => updateStatusRow r status processed_at error_message tNow)).head?)

/-- Statement `SELECT * FROM email_queue WHERE id = $1`, first row or absent. -/
def EmailQueueService.get_by_id (tbl : List QueueRow) (qid : Nat) : Option QueueRow :=
  (tbl.filter (fun r => r.id == qid)).head?

theorem filter_map_comm {α : Type} (f : α → α) (p : α → Bool) (l : List α)
    (h : ∀ a, p (f a) = p a) : (l.map f).filter p = (l.filter p).map f := by
  induction l with
  | nil => rfl
  | cons a t ih =>
    simp only [List.map_cons, List.filter_cons, h a]
    by_cases hp : p a = true
    · simp [hp, ih]
    · simp [hp, ih]

/-- A previously completed queue item carrying a processed timestamp and
an error message. -/
def qRow1 : QueueRow :=
  { id := 1, status := ProcessingStatus.completed, priority := 0,
    processed_at := some 5, error_message := some "boom", updated_at := 10 }

/-- C10 counterexample: writing status QUEUED with a supplied message "x"
stores `error_message = "x"` — the message is written for a non-terminal
status too, not set to null as the claim states. -/
theorem c10_counterexample :
    ((EmailQueueService.update_status [qRow1] 1 ProcessingStatus.queued
        (some "x") 20 21).2).map (fun r => r.error_message) = some (some "x") ∧
    some (some "x") ≠ some (none : Option String) :=
  ⟨rfl, by decide⟩

/-- C10 (amended): every `update_status` call overwrites `status`,
`processed_at`, `error_message` and `updated_at` of the matched row
unconditionally: `processed_at` becomes the current time exactly for
COMPLETED/FAILED and null otherwise, and `error_message` always becomes
the supplied message (null when omitted) — so writing a non-terminal
status with no message to a previously completed or failed item erases
its recorded `processed_at` and error message. -/
theorem c10_update_status_overwrites (tbl : List QueueRow) (qid : Nat)
    (status : ProcessingStatus) (em : Option String) (tP tN : Nat) (r : QueueRow)
    (h : EmailQueueService.get_by_id tbl qid = some r) :
    EmailQueueService.get_by_id
        (EmailQueueService.update_status tbl qid status em tP tN).1 qid
      = some (updateStatusRow r status
          (if status = ProcessingStatus.completed ∨ status = ProcessingStatus.failed
            then some tP else none) em tN) ∧
    (EmailQueueService.update_status tbl qid status em tP tN).2
      = some (updateStatusRow r status
          (if status = ProcessingStatus.completed ∨ status = ProcessingStatus.failed
            then some tP else none) em tN) := by
  cases hf : tbl.filter (fun x => x.id == qid) with
  | nil =>
    rw [EmailQueueService.get_by_id, hf] at h
    exact absurd h (by simp)
  | cons x xs =>
    have hx : x = r := by
      rw [EmailQueueService.get_by_id, hf] at h
      simpa using h
    subst hx
    have hmemx : x ∈ tbl.filter (fun y => y.id == qid) := by
      rw [hf]; exact List.mem_cons_self x xs
    have hpr : (x.id == qid) = true := (List.mem_filter.mp hmemx).2
    have hcomm : ∀ a : QueueRow,
        ((if a.id == qid
            then updateStatusRow a status
              (if status = ProcessingStatus.completed ∨ status = ProcessingStatus.failed
                then some tP else none) em tN
            else a).id == qid) = (a.id == qid) := by
      intro a
      by_cases ha : (a.id == qid) = true <;> simp [ha, updateStatusRow]
    constructor
    · simp only [EmailQueueService.get_by_id, EmailQueueService.update_status]
      rw [filter_map_comm _ _ _ hcomm, hf]
      have hid : x.id = qid := by simpa using hpr
      simp [hid]
    · simp only [EmailQueueService.update_status]
      rw [hf]
      simp

/-- Witness for the amended C10: a QUEUED write with no message onto the
completed item `qRow1` erases its processed timestamp and error message. -/
theorem c10_update_status_overwrites_witness :
    EmailQueueService.get_by_id
        (EmailQueueService.update_status [qRow1] 1 ProcessingStatus.queued none 20 21).1 1
      = some (updateStatusRow qRow1 ProcessingStatus.queued none none 21) := by
  have h := (c10_update_status_overwrites [qRow1] 1 ProcessingStatus.queued
    none 20 21 qRow1 rfl).1
  simpa using h

/-! ## JSON-field validation on read

`GPTCache.validate_result_json` (src/models/gpt_cache.py, lines 18-26)
parses a string-typed `result_json` and raises
`ValueError("Invalid JSON format for result_json")` on a parse failure.

`Schedule.to_dict` (src/models/schedule.py, lines 28-72) parses the
`home_participants`/`away_participants` text inside `try ... except: pass`
blocks: on a parse failure the raw stored text stays in the dictionary and
no error is raised.

`loads` abstracts Python `json.loads`, returning `none` exactly on
malformed input text; `J` is the type of parsed JSON values. -/

/-- A value of a serialized-JSON field in a `to_dict` result: either the
raw stored text or the parsed structure. -/
inductive DictVal (J : Type) where
  | raw (s : String)
  | parsed (j : J)

/-- The `validate_result_json` validator of the `GPTCache` model: a
string input is parsed, and a parse failure raises a `ValueError`; a
non-string input passes through. -/
def GPTCache.validate_result_json {J : Type} (loads : String → Option J)
    (v : String ⊕ J) : Except String J :=
  match v with
  | Sum.inr j => Except.ok j
  | Sum.inl s =>
    match loads s with
    | some j => Except.ok j
    | none => Except.error "Invalid JSON format for result_json"

/-- The participant-field processing of `Schedule.to_dict`: a truthy
stored text is parsed, and on failure the `except: pass` keeps the raw
text; a falsy or absent value is left as is. -/
def Schedule.to_dict_participants {J : Type} (loads : String → Option J)
    (hp : Option String) : Option (DictVal J) :=
  match hp with
  | none => none
  | some s =>
    if s == "" then some (DictVal.raw s)
    else
      match loads s with
      | some j => some (DictVal.parsed j)
      | none => some (DictVal.raw s)

/-- C8 counterexample: on the same malformed text the cache model raises
the validation error, but the schedule participant parsing yields the
untransformed raw text with no error — reading back malformed
participants does not surface as a validation error. -/
theorem c8_counterexample :
    Schedule.to_dict_participants (fun _ => (none : Option (List String)))
        (some "not json")
      = some (DictVal.raw "not json") ∧
    GPTCache.validate_result_json (fun _ => (none : Option (List String)))
        (Sum.inl "not json")
      = Except.error "Invalid JSON format for result_json" :=
  ⟨rfl, rfl⟩

/-- C8 (amended): for every malformed non-empty stored text,
`GPTCache.validate_result_json` raises the validation error, while the
`Schedule.to_dict` participant parsing silently keeps the raw stored text
(no error is raised and no null is produced). -/
theorem c8_malformed_json {J : Type} (loads : String → Option J) (s : String)
    (hmal : loads s = none) (hne : (s == "") = false) :
    GPTCache.validate_result_json loads (Sum.inl s)
      = Except.error "Invalid JSON format for result_json" ∧
    Schedule.to_dict_participants loads (some s) = some (DictVal.raw s) := by
  constructor
  · simp [GPTCache.validate_result_json, hmal]
  · simp [Schedule.to_dict_participants, hne, hmal]

/-- Witness for the amended C8 at a concrete malformed text. -/
theorem c8_malformed_json_witness :
    GPTCache.validate_result_json (fun _ => (none : Option Nat)) (Sum.inl "broken json")
      = Except.error "Invalid JSON format for result_json" ∧
    Schedule.to_dict_participants (fun _ => (none : Option Nat)) (some "broken json")
      = some (DictVal.raw "broken json") :=
  c8_malformed_json (fun _ => none) "broken json" rfl rfl
